import Mathlib

/-
Verification of the rusty-claude retry wrapper (src/src/main.rs) against its
specification.  The Rust source is shallowly embedded below:

* Text is modelled as `List Char` (the Rust code decodes captured bytes with
  `String::from_utf8_lossy`; the lossy decoding itself is abstracted away and
  the captured output is modelled directly as text).
* `u64` arithmetic is modelled on `Nat` with explicit saturation
  (`saturating_mul`, `saturating_pow`, `saturating_sub`) and wrap-around
  (`% 2^64`, the release-build semantics of overflowing `+`/`*`).
* The `regex` crate is modelled on the fragment of pattern strings the
  program actually uses: the 13 built-in patterns compile to dedicated
  matchers (each hand-translated from its regex, ASCII case folding), and
  metacharacter-free strings compile to literal substring matchers.  Other
  regex strings are outside the modelled fragment.
* The random draws `rng.random_range(0..=k)` are modelled as `seed % (k+1)`
  for an arbitrary seed, so every value in the inclusive range is reachable
  and no value outside it is.
* The supervision loop of `main` is modelled as a step function plus a
  fuel-indexed loop over an oracle `env : Nat → Option ChildRun` giving each
  attempt's spawn result (none = spawn error) and child outcome, emitting a
  trace of events (spawn, tee, pattern consultation, waiting).
-/

/-! ## Character classes (ASCII fragment of the regex classes `\s`, `\w`, `\d`) -/

/-- ASCII fragment of the regex class `\s`. -/
def isSpaceChar (c : Char) : Bool :=
  c = ' ' || c = '\t' || c = '\n' || c = '\r' || c = '\x0b' || c = '\x0c'

/-- ASCII fragment of the regex word-character class `\w` (used by `\b`). -/
def isWordChar (c : Char) : Bool :=
  c.isAlphanum || c = '_'

/-- Lower-case a text (ASCII case folding, modelling the `(?i)` flag). -/
def lowerL (t : List Char) : List Char := t.map Char.toLower

/-! ## Scanner combinators for the concrete regexes of main.rs -/

/-- Strip the literal `pat` from the head of `t` (case-sensitive). -/
def dropLit : List Char → List Char → Option (List Char)
  | [], t => some t
  | _ :: _, [] => none
  | p :: ps, c :: cs => if c = p then dropLit ps cs else none

/-- Strip the literal `pat` (given lower-case) from the head of `t`,
case-insensitively. -/
def dropLitCI : List Char → List Char → Option (List Char)
  | [], t => some t
  | _ :: _, [] => none
  | p :: ps, c :: cs => if c.toLower = p then dropLitCI ps cs else none

/-- Consume the regex `\s*` (greedy; exact here because every continuation in
the patterns of main.rs starts with a non-space character). -/
def dropWs (t : List Char) : List Char := t.dropWhile isSpaceChar

/-- Match a sequence of literal words separated by `\s*`, returning the
remaining text. -/
def seqWords : List (List Char) → List Char → Option (List Char)
  | [], t => some t
  | [w], t => dropLit w t
  | w :: w2 :: ws, t =>
    match dropLit w t with
    | none => none
    | some r => seqWords (w2 :: ws) (dropWs r)

/-- Try an anchored matcher at every position of the text (regex search is
unanchored: a match may start anywhere). -/
def scanAny (p : List Char → Bool) : List Char → Bool
  | [] => p []
  | c :: cs => p (c :: cs) || scanAny p cs

/-- Try an anchored matcher that also inspects the previous character (for
`\b`) at every position of the text. -/
def scanPrev (p : Option Char → List Char → Bool) : Option Char → List Char → Bool
  | prev, [] => p prev []
  | prev, c :: cs => p prev (c :: cs) || scanPrev p (some c) cs

/-- The word boundary `\b` immediately before a word character: satisfied at
the start of the text or after a non-word character. -/
def boundaryOk (prev : Option Char) : Bool :=
  match prev with
  | none => true
  | some c => !isWordChar c

/-- The word boundary `\b` immediately after a word character: satisfied at
the end of the text or before a non-word character. -/
def endBoundary : List Char → Bool
  | [] => true
  | c :: _ => !isWordChar c

/-- Substring search for literal words separated by `\s*`. -/
def containsWords (ws : List (List Char)) (t : List Char) : Bool :=
  scanAny (fun u => (seqWords ws u).isSome) t

/-- Anchored matcher for `\b5\d\d\s*(Server\s*Error|Error)\b` on lower-cased
text.  The ordered alternation with the trailing `\b` is faithful: if the
`server\s*error` branch matches but its boundary fails, the regex engine
retries the `error` branch at the same position. -/
def err5xxAt (prev : Option Char) : List Char → Bool
  | '5' :: d1 :: d2 :: rest =>
    boundaryOk prev && d1.isDigit && d2.isDigit &&
      (let r := dropWs rest
       (match seqWords ["server".data, "error".data] r with
        | some r2 => endBoundary r2
        | none => false)
       ||
       (match dropLit "error".data r with
        | some r2 => endBoundary r2
        | none => false))
  | _ => false

/-- Anchored matcher for `\b429\b`. -/
def r429At (prev : Option Char) : List Char → Bool
  | '4' :: '2' :: '9' :: rest => boundaryOk prev && endBoundary rest
  | _ => false

/-- Anchored matcher for `status\s*code\s*=\s*5\d\d` on lower-cased text. -/
def statusCodeAt (t : List Char) : Bool :=
  match seqWords ["status".data, "code".data, "=".data] t with
  | some r =>
    match dropWs r with
    | '5' :: d1 :: d2 :: _ => d1.isDigit && d2.isDigit
    | _ => false
  | none => false

/-- Anchored matcher for `(fetch|network)\s*error` on lower-cased text. -/
def fetchNetAt (t : List Char) : Bool :=
  (match dropLit "fetch".data t with
   | some r => (dropLit "error".data (dropWs r)).isSome
   | none => false)
  ||
  (match dropLit "network".data t with
   | some r => (dropLit "error".data (dropWs r)).isSome
   | none => false)

/-! ## The compiled-pattern type (model of `regex::Regex` on the fragment
the program uses) -/

/-- A compiled pattern.  One constructor per built-in pattern of
`compile_patterns` in main.rs, plus literal (metacharacter-free) patterns
with and without the `(?i)` flag for user-supplied pattern strings. -/
inductive Regex
  | overloaded        -- (?i)overloaded
  | http500           -- (?i)HTTP\s*500
  | err5xx            -- (?i)\b5\d\d\s*(Server\s*Error|Error)\b
  | statusCode5xx     -- (?i)status\s*code\s*=\s*5\d\d
  | tooManyRequests   -- (?i)Too\s*Many\s*Requests
  | r429              -- (?i)\b429\b
  | econnreset        -- (?i)ECONNRESET
  | etimedout         -- (?i)ETIMEDOUT
  | gatewayTimeout    -- (?i)Gateway\s*Timeout
  | upstreamTimeout   -- (?i)upstream\s*timeout
  | temporaryFailure  -- (?i)temporary\s*failure
  | fetchNetworkError -- (?i)(fetch|network)\s*error
  | socketHangUp      -- (?i)socket\s*hang\s*up
  | litCI (s : String)  -- (?i) followed by a literal: case-insensitive substring
  | lit (s : String)    -- a literal pattern: case-sensitive substring
deriving DecidableEq

/-- `Regex::is_match`: unanchored search over the text. -/
def Regex.isMatch : Regex → List Char → Bool
  | .overloaded, t => containsWords ["overloaded".data] (lowerL t)
  | .http500, t => containsWords ["http".data, "500".data] (lowerL t)
  | .err5xx, t => scanPrev err5xxAt none (lowerL t)
  | .statusCode5xx, t => scanAny statusCodeAt (lowerL t)
  | .tooManyRequests, t => containsWords ["too".data, "many".data, "requests".data] (lowerL t)
  | .r429, t => scanPrev r429At none (lowerL t)
  | .econnreset, t => containsWords ["econnreset".data] (lowerL t)
  | .etimedout, t => containsWords ["etimedout".data] (lowerL t)
  | .gatewayTimeout, t => containsWords ["gateway".data, "timeout".data] (lowerL t)
  | .upstreamTimeout, t => containsWords ["upstream".data, "timeout".data] (lowerL t)
  | .temporaryFailure, t => containsWords ["temporary".data, "failure".data] (lowerL t)
  | .fetchNetworkError, t => scanAny fetchNetAt (lowerL t)
  | .socketHangUp, t => containsWords ["socket".data, "hang".data, "up".data] (lowerL t)
  | .litCI s, t => containsWords [lowerL s.data] (lowerL t)
  | .lit s, t => containsWords [s.data] t

/-- Regex metacharacters (a pattern free of them is a literal). -/
def regexMeta : List Char :=
  ['\\', '(', ')', '[', ']', '\x7b', '\x7d', '|', '.', '*', '+', '?', '^', '$']

/-- A pattern string with no regex metacharacter. -/
def isMetaFree (s : List Char) : Bool := s.all (fun c => !(regexMeta.contains c))

/-- Models `regex::Regex::new` on the fragment of pattern strings this
program uses: each of the 13 built-in patterns compiles to its dedicated
matcher, and literal (metacharacter-free) strings compile to substring
matchers, case-insensitive when the `(?i)` flag is present.  Regex strings
outside this fragment are not modelled (mapped to `none`). -/
def regexNew (p : String) : Option Regex :=
  if p = "(?i)overloaded" then some .overloaded
  else if p = "(?i)HTTP\\s*500" then some .http500
  else if p = "(?i)\\b5\\d\\d\\s*(Server\\s*Error|Error)\\b" then some .err5xx
  else if p = "(?i)status\\s*code\\s*=\\s*5\\d\\d" then some .statusCode5xx
  else if p = "(?i)Too\\s*Many\\s*Requests" then some .tooManyRequests
  else if p = "(?i)\\b429\\b" then some .r429
  else if p = "(?i)ECONNRESET" then some .econnreset
  else if p = "(?i)ETIMEDOUT" then some .etimedout
  else if p = "(?i)Gateway\\s*Timeout" then some .gatewayTimeout
  else if p = "(?i)upstream\\s*timeout" then some .upstreamTimeout
  else if p = "(?i)temporary\\s*failure" then some .temporaryFailure
  else if p = "(?i)(fetch|network)\\s*error" then some .fetchNetworkError
  else if p = "(?i)socket\\s*hang\\s*up" then some .socketHangUp
  else if p.data.take 4 = "(?i)".data && isMetaFree (p.data.drop 4) then
    some (.litCI (String.mk (p.data.drop 4)))
  else if isMetaFree p.data then some (.lit p)
  else none

/-- The built-in pattern strings of `compile_patterns` (main.rs lines 73-87),
in source order. -/
def builtinPatternStrings : List String :=
  [ "(?i)overloaded",
    "(?i)HTTP\\s*500",
    "(?i)\\b5\\d\\d\\s*(Server\\s*Error|Error)\\b",
    "(?i)status\\s*code\\s*=\\s*5\\d\\d",
    "(?i)Too\\s*Many\\s*Requests",
    "(?i)\\b429\\b",
    "(?i)ECONNRESET",
    "(?i)ETIMEDOUT",
    "(?i)Gateway\\s*Timeout",
    "(?i)upstream\\s*timeout",
    "(?i)temporary\\s*failure",
    "(?i)(fetch|network)\\s*error",
    "(?i)socket\\s*hang\\s*up" ]

/-- The 13 built-in patterns, compiled, in order. -/
def builtinRegexes : List Regex :=
  [ .overloaded, .http500, .err5xx, .statusCode5xx, .tooManyRequests, .r429,
    .econnreset, .etimedout, .gatewayTimeout, .upstreamTimeout,
    .temporaryFailure, .fetchNetworkError, .socketHangUp ]

/-- Split a character list at every pipe, keeping empty groups
(`str::split('|')`). -/
def splitPipe : List Char → List (List Char)
  | [] => [[]]
  | c :: cs =>
    let r := splitPipe cs
    if c = '|' then [] :: r
    else
      match r with
      | [] => [[c]]
      | g :: gs => (c :: g) :: gs

/-- `str::trim`: drop leading and trailing whitespace (ASCII fragment). -/
def trimL (s : List Char) : List Char :=
  ((s.dropWhile isSpaceChar).reverse.dropWhile isSpaceChar).reverse

/-- Split a pipe-delimited pattern string, trim each entry, and drop empty
ones (main.rs lines 90-96 and 99-105). -/
def splitTrimNonEmpty (s : String) : List String :=
  (((splitPipe s.data).map trimL).filter (fun g => !g.isEmpty)).map
    (fun g => String.mk g)

/-- `compile_patterns` (main.rs lines 71-110).  `envPats` models the value of
the `CLAUDE_SUPERVISOR_PATTERNS` environment variable (`none` when unset) and
`extra` the `--patterns` command-line option.  Patterns that fail to compile
are silently dropped (`filter_map`). -/
def compile_patterns (envPats : Option String) (extra : Option String) : List Regex :=
  let pats := builtinPatternStrings
    ++ (match envPats with | some e => splitTrimNonEmpty e | none => [])
    ++ (match extra with | some x => splitTrimNonEmpty x | none => [])
  pats.filterMap regexNew

/-- Two texts are case-variants of each other when they agree up to case. -/
abbrev caseVariant (t t' : List Char) : Prop := lowerL t = lowerL t'

/-! ## Retry-After hint extraction (`find_retry_after_ms`, main.rs 112-124) -/

/-- Numeric value of a digit string (the value `str::parse::<u64>` would
produce when it fits in a u64). -/
def digitsVal (ds : List Char) : Nat :=
  ds.foldl (fun acc c => acc * 10 + (c.toNat - '0'.toNat)) 0

/-- Anchored match of `(?i)Retry-After:\s*(\d+)\b` at the head of the text,
returning the value of the captured digit group.  The trailing `\b` after the
greedy `\d+` succeeds exactly when the character after the maximal digit run
is not a word character (backtracking into the digit run cannot help, since a
digit follows). -/
def hintAt (t : List Char) : Option Nat :=
  match dropLitCI "retry-after:".data t with
  | none => none
  | some r =>
    let r2 := dropWs r
    let ds := r2.takeWhile Char.isDigit
    let rest := r2.dropWhile Char.isDigit
    if ds.isEmpty then none
    else if endBoundary rest then some (digitsVal ds) else none

/-- Leftmost match of the Retry-After regex over the whole text. -/
def scanHint : List Char → Option Nat
  | [] => none
  | c :: cs =>
    match hintAt (c :: cs) with
    | some n => some n
    | none => scanHint cs

/-- Wrap-around modulus of u64 arithmetic. -/
def U64MOD : Nat := 2 ^ 64

/-- Largest u64 value (`u64::MAX`), the saturation point. -/
def U64MAX : Nat := 2 ^ 64 - 1

/-- `find_retry_after_ms` (main.rs 112-124): leftmost "Retry-After: N" hint,
parsed as u64 (failing, hence `none`, when the digits exceed `u64::MAX`) and
converted to milliseconds. -/
def find_retry_after_ms (t : List Char) : Option Nat :=
  match scanHint t with
  | some n => if n < U64MOD then some (n * 1000 % U64MOD) else none
  | none => none

/-! ## Retry decision engine (`should_retry`, main.rs 126-147) -/

/-- `should_retry` (main.rs 126-147): the first matching pattern decides a
retry together with the optional Retry-After hint; otherwise the
retry-on-any flag accepts any absent or nonzero exit code. -/
def should_retry (output : List Char) (exit_code : Option Int) (retry_on_any : Bool)
    (regexes : List Regex) : Bool × Option Nat :=
  match regexes.find? (fun re => re.isMatch output) with
  | some _ => (true, find_retry_after_ms output)
  | none =>
    if retry_on_any then
      match exit_code with
      | some code => if code ≠ 0 then (true, none) else (false, none)
      | none => (true, none)
    else (false, none)

/-! ## Backoff scheduler (`backoff_ms`, main.rs 63-69) -/

/-- `u64::saturating_mul`. -/
def satMulU64 (a b : Nat) : Nat := min (a * b) U64MAX

/-- `2u64.saturating_pow n`. -/
def satPow2U64 (n : Nat) : Nat := min (2 ^ n) U64MAX

/-- `rng.random_range(0..=hi)` for an arbitrary seed: every value of the
inclusive range `0..=hi` is reachable and no other value is. -/
def randomRangeIncl (hi : Nat) (seed : Nat) : Nat := seed % (hi + 1)

/-- `backoff_ms` (main.rs 63-69).  `s1`, `s2` are the seeds of the two random
draws; Nat subtraction is truncated, matching `saturating_sub`; the final
sum wraps as release-mode u64 addition does. -/
def backoff_ms (attempt base cap s1 s2 : Nat) : Nat :=
  let e := satMulU64 base (satPow2U64 attempt)
  let upper := max (min cap e) base
  (base + randomRangeIncl (upper - base) s1 + randomRangeIncl 250 s2) % U64MOD

/-! ## Stream relay (`tee_reader`, main.rs 150-171) -/

/-- Kind of an I/O error: the transient interrupt, or anything else. -/
inductive IoErrKind
  | interrupted
  | other (id : Nat)
deriving DecidableEq

/-- Outcome of one `src.read` call: a chunk of bytes (`Ok(n)`, with `n = 0`,
i.e. an empty chunk, meaning end-of-stream) or an error. -/
inductive ReadOutcome
  | bytes (bs : List Nat)
  | fail (k : IoErrKind)
deriving DecidableEq

/-- Chunks carried by a read stream, in order. -/
def chunksOf (reads : List ReadOutcome) : List (List Nat) :=
  reads.filterMap (fun r => match r with | .bytes bs => some bs | .fail _ => none)

/-- The loop of `tee_reader` (main.rs 155-169).  `wr i` / `fl i` give the
outcome of the `write_all` / `flush` call for the i-th written chunk (`none`
= success).  Returns the result (`Ok(buffered bytes)` or the surfaced error)
together with the list of chunks successfully written to the destination. -/
def teeRun (wr fl : Nat → Option IoErrKind) :
    List ReadOutcome → Nat → List Nat → List (List Nat) →
    Except IoErrKind (List Nat) × List (List Nat)
  | [], _, buf, ws => (Except.ok buf, ws)
  | r :: rs, i, buf, ws =>
    match r with
    | .bytes bs =>
      if bs.isEmpty then (Except.ok buf, ws)
      else
        match wr i with
        | some k => (Except.error k, ws)
        | none =>
          match fl i with
          | some k => (Except.error k, ws ++ [bs])
          | none => teeRun wr fl rs (i + 1) (buf ++ bs) (ws ++ [bs])
    | .fail .interrupted => teeRun wr fl rs i buf ws
    | .fail (.other e) => (Except.error (.other e), ws)

/-- `tee_reader` (main.rs 150-171), run to completion on a read stream. -/
def tee_reader (wr fl : Nat → Option IoErrKind) (reads : List ReadOutcome) :
    Except IoErrKind (List Nat) × List (List Nat) :=
  teeRun wr fl reads 0 [] []

/-! ## Supervision loop (`main`, main.rs 173-312) -/

/-- The resolved per-run configuration (the relevant fields of `Cli` after
environment overrides, plus the compiled pattern list). -/
structure Config where
  max_retries : Nat
  base_delay_ms : Nat
  max_delay_ms : Nat
  retry_on_any_error : Bool
  force_tee : Bool
  args : List String
  regexes : List Regex

/-- Oracle result of spawning the child once: its exit code (`none` = killed
by a signal) and, for captured mode, the text of its two output streams. -/
structure ChildRun where
  code : Option Int
  out : List Char
  err : List Char
deriving DecidableEq

/-- Trace events of a run: one `spawned` per `cmd.spawn()` (with the mode in
force), `teeUsed` when the two tee_reader tasks are started, `patternsChecked`
when `should_retry` is consulted, `waited` for each backoff sleep. -/
inductive Event
  | spawned (attempt : Nat) (interactive : Bool)
  | teeUsed (attempt : Nat)
  | patternsChecked (attempt : Nat)
  | waited (attempt : Nat) (ms : Nat)
deriving DecidableEq

/-- The attempt index an event belongs to. -/
def Event.idx : Event → Nat
  | .spawned a _ => a
  | .teeUsed a => a
  | .patternsChecked a => a
  | .waited a _ => a

/-- How the wrapper process ends: `return Ok(())` (exit code 0) or
`std::process::exit c`. -/
inductive RunResult
  | success
  | exitCode (c : Int)
deriving DecidableEq

/-- Outcome of one iteration of the attempt loop: the run ends, or the loop
continues with the next attempt. -/
inductive StepRes
  | done (r : RunResult) (evs : List Event)
  | retry (evs : List Event)

/-- The events of a step. -/
def StepRes.evs : StepRes → List Event
  | .done _ evs => evs
  | .retry evs => evs

/-- `decideInteractive` (main.rs 206): Interactive iff stdin was not
captured (or captured empty), stdin is a TTY, there are no child args, and
tee is not forced. -/
def decideInteractive (stdin_buf : List Nat) (stdin_is_tty : Bool)
    (args : List String) (force_tee : Bool) : Bool :=
  stdin_buf.isEmpty && stdin_is_tty && args.isEmpty && !force_tee

/-- One iteration of the attempt loop of `main` (main.rs 216-309).
`spawned` is the oracle's spawn result for this attempt (`none` = spawn
error, main.rs 233-239); `seed` seeds the two random draws of a backoff.
Interactive mode (main.rs 249-266) only inspects the exit status; captured
mode (main.rs 268-308) tees both streams, builds the combined text with the
newline separator (main.rs 280-285), and consults `should_retry`. -/
def runStep (cfg : Config) (interactive : Bool) (attempt : Nat)
    (spawned : Option ChildRun) (seed : Nat × Nat) : StepRes :=
  match spawned with
  | none => .done (.exitCode 127) [.spawned attempt interactive]
  | some child =>
    if interactive then
      if child.code = some 0 then .done .success [.spawned attempt interactive]
      else if attempt = cfg.max_retries then
        .done (.exitCode (child.code.getD 1)) [.spawned attempt interactive]
      else
        let wait := backoff_ms attempt cfg.base_delay_ms cfg.max_delay_ms seed.1 seed.2
        .retry [.spawned attempt interactive, .waited attempt wait]
    else
      let combined := child.out ++ '\n' :: child.err
      if child.code = some 0 then
        .done .success [.spawned attempt interactive, .teeUsed attempt]
      else
        let rd := should_retry combined child.code cfg.retry_on_any_error cfg.regexes
        if !rd.1 || attempt = cfg.max_retries then
          .done (.exitCode (child.code.getD 1))
            [.spawned attempt interactive, .teeUsed attempt, .patternsChecked attempt]
        else
          let wait := rd.2.getD
            (backoff_ms attempt cfg.base_delay_ms cfg.max_delay_ms seed.1 seed.2)
          .retry [.spawned attempt interactive, .teeUsed attempt,
                  .patternsChecked attempt, .waited attempt wait]

/-- The attempt loop `for attempt in 0..=max_retries` (main.rs 216), with
fuel counting the remaining iterations.  Exhausted fuel models the loop
completing, after which `main` returns `Ok(())` (main.rs 311). -/
def runLoop (cfg : Config) (interactive : Bool) (env : Nat → Option ChildRun)
    (seeds : Nat → Nat × Nat) : Nat → Nat → RunResult × List Event
  | 0, _ => (.success, [])
  | fuel + 1, attempt =>
    match runStep cfg interactive attempt (env attempt) (seeds attempt) with
    | .done r evs => (r, evs)
    | .retry evs =>
      let rest := runLoop cfg interactive env seeds fuel (attempt + 1)
      (rest.1, evs ++ rest.2)

/-- A whole run of `main` (mode selection at main.rs 206, then the attempt
loop from attempt 0 with `max_retries + 1` iterations available). -/
def runClaude (cfg : Config) (stdin_buf : List Nat) (stdin_is_tty : Bool)
    (env : Nat → Option ChildRun) (seeds : Nat → Nat × Nat) :
    RunResult × List Event :=
  let interactive := decideInteractive stdin_buf stdin_is_tty cfg.args cfg.force_tee
  runLoop cfg interactive env seeds (cfg.max_retries + 1) 0

/-- Whether an event is a spawn. -/
def isSpawnEv : Event → Bool
  | .spawned _ _ => true
  | _ => false

/-- Number of child processes spawned in a trace. -/
def spawnCount (evs : List Event) : Nat := (evs.filter isSpawnEv).length

/-- Two attempt oracles that agree on spawn success and exit codes (they may
differ arbitrarily in the produced output text). -/
def codesAgree (env env' : Nat → Option ChildRun) : Prop :=
  ∀ a, (env a).map ChildRun.code = (env' a).map ChildRun.code

/-! ## Fixtures used by the witness theorems -/

/-- The user-supplied pattern strings, environment override first (main.rs
89-106). -/
def userPatStrings (envPats extra : Option String) : List String :=
  (match envPats with | some e => splitTrimNonEmpty e | none => [])
  ++ (match extra with | some x => splitTrimNonEmpty x | none => [])

/-- A small concrete configuration for exercising the run model. -/
def cfgW : Config :=
  { max_retries := 1, base_delay_ms := 500, max_delay_ms := 20000,
    retry_on_any_error := false, force_tee := false, args := [],
    regexes := compile_patterns none none }

/-- An attempt oracle whose child always exits 0. -/
def envOk : Nat → Option ChildRun := fun _ => some ⟨some 0, [], []⟩

/-- An attempt oracle whose child always exits 1 with empty output. -/
def envFail : Nat → Option ChildRun := fun _ => some ⟨some 1, [], []⟩

/-- An attempt oracle whose child always exits 2 with empty output. -/
def envFail2 : Nat → Option ChildRun := fun _ => some ⟨some 2, [], []⟩

/-- A fixed seed stream for the random draws. -/
def seedsW : Nat → Nat × Nat := fun _ => (0, 0)

/-! ## Helper lemmas about one loop iteration -/

/-- Exhaustive enumeration of the possible outcomes of one loop iteration. -/
theorem runStep_cases (cfg : Config) (inter : Bool) (attempt : Nat)
    (sp : Option ChildRun) (seed : Nat × Nat) :
    (sp = none ∧ runStep cfg inter attempt sp seed =
        .done (.exitCode 127) [.spawned attempt inter])
    ∨ (∃ child, sp = some child ∧ child.code = some 0 ∧
        (runStep cfg inter attempt sp seed = .done .success [.spawned attempt inter]
         ∨ runStep cfg inter attempt sp seed =
             .done .success [.spawned attempt inter, .teeUsed attempt]))
    ∨ (∃ child, sp = some child ∧ child.code ≠ some 0 ∧
        (runStep cfg inter attempt sp seed =
            .done (.exitCode (child.code.getD 1)) [.spawned attempt inter]
         ∨ runStep cfg inter attempt sp seed =
            .done (.exitCode (child.code.getD 1))
              [.spawned attempt inter, .teeUsed attempt, .patternsChecked attempt]))
    ∨ (∃ child, sp = some child ∧ child.code ≠ some 0 ∧ attempt ≠ cfg.max_retries ∧
        ∃ w, (runStep cfg inter attempt sp seed =
            .retry [.spawned attempt inter, .waited attempt w]
         ∨ runStep cfg inter attempt sp seed =
            .retry [.spawned attempt inter, .teeUsed attempt, .patternsChecked attempt,
                    .waited attempt w])) := by
  rcases sp with _ | child
  · exact Or.inl ⟨rfl, rfl⟩
  · by_cases h0 : child.code = some 0
    · cases inter
      · exact Or.inr (Or.inl ⟨child, rfl, h0, Or.inr (by simp [runStep, h0])⟩)
      · exact Or.inr (Or.inl ⟨child, rfl, h0, Or.inl (by simp [runStep, h0])⟩)
    · cases inter
      · by_cases hr : (should_retry (child.out ++ '\n' :: child.err) child.code
            cfg.retry_on_any_error cfg.regexes).1 = true
        · by_cases hm : attempt = cfg.max_retries
          · refine Or.inr (Or.inr (Or.inl ⟨child, rfl, h0, Or.inr ?_⟩))
            simp [runStep, h0, hr, hm]
          · refine Or.inr (Or.inr (Or.inr ⟨child, rfl, h0, hm,
              (should_retry (child.out ++ '\n' :: child.err) child.code
                cfg.retry_on_any_error cfg.regexes).2.getD
                (backoff_ms attempt cfg.base_delay_ms cfg.max_delay_ms seed.1 seed.2),
              Or.inr ?_⟩))
            simp [runStep, h0, hr, hm]
        · refine Or.inr (Or.inr (Or.inl ⟨child, rfl, h0, Or.inr ?_⟩))
          simp [runStep, h0, hr]
      · by_cases hm : attempt = cfg.max_retries
        · refine Or.inr (Or.inr (Or.inl ⟨child, rfl, h0, Or.inl ?_⟩))
          simp [runStep, h0, hm]
        · refine Or.inr (Or.inr (Or.inr ⟨child, rfl, h0, hm,
            backoff_ms attempt cfg.base_delay_ms cfg.max_delay_ms seed.1 seed.2,
            Or.inl ?_⟩))
          simp [runStep, h0, hm]

theorem step_evs_idx (cfg : Config) (inter : Bool) (attempt : Nat)
    (sp : Option ChildRun) (seed : Nat × Nat) :
    ∀ e ∈ (runStep cfg inter attempt sp seed).evs, e.idx = attempt := by
  rcases runStep_cases cfg inter attempt sp seed with
    ⟨_, hE⟩ | ⟨c, _, _, hE | hE⟩ | ⟨c, _, _, hE | hE⟩ | ⟨c, _, _, _, w, hE | hE⟩ <;>
    rw [hE] <;> simp [StepRes.evs, List.forall_mem_cons, Event.idx]

theorem step_spawned_mode (cfg : Config) (inter : Bool) (attempt : Nat)
    (sp : Option ChildRun) (seed : Nat × Nat) :
    ∀ a m, Event.spawned a m ∈ (runStep cfg inter attempt sp seed).evs → m = inter := by
  intro a m hm
  rcases runStep_cases cfg inter attempt sp seed with
    ⟨_, hE⟩ | ⟨c, _, _, hE | hE⟩ | ⟨c, _, _, hE | hE⟩ | ⟨c, _, _, _, w, hE | hE⟩ <;>
    rw [hE] at hm <;>
    simp only [StepRes.evs, List.mem_cons, List.not_mem_nil, or_false] at hm <;>
    simp_all

theorem step_head_spawn (cfg : Config) (inter : Bool) (attempt : Nat)
    (sp : Option ChildRun) (seed : Nat × Nat) :
    ∃ tl, (runStep cfg inter attempt sp seed).evs = Event.spawned attempt inter :: tl := by
  rcases runStep_cases cfg inter attempt sp seed with
    ⟨_, hE⟩ | ⟨c, _, _, hE | hE⟩ | ⟨c, _, _, hE | hE⟩ | ⟨c, _, _, _, w, hE | hE⟩ <;>
    rw [hE] <;> exact ⟨_, rfl⟩

theorem step_spawnCount (cfg : Config) (inter : Bool) (attempt : Nat)
    (sp : Option ChildRun) (seed : Nat × Nat) :
    spawnCount (runStep cfg inter attempt sp seed).evs = 1 := by
  rcases runStep_cases cfg inter attempt sp seed with
    ⟨_, hE⟩ | ⟨c, _, _, hE | hE⟩ | ⟨c, _, _, hE | hE⟩ | ⟨c, _, _, _, w, hE | hE⟩ <;>
    rw [hE] <;> simp [StepRes.evs, spawnCount, isSpawnEv, List.filter]

theorem step_retry_inv (cfg : Config) (inter : Bool) (attempt : Nat)
    (sp : Option ChildRun) (seed : Nat × Nat) (evs : List Event)
    (h : runStep cfg inter attempt sp seed = .retry evs) :
    ∃ child, sp = some child ∧ child.code ≠ some 0 ∧ attempt ≠ cfg.max_retries := by
  rcases runStep_cases cfg inter attempt sp seed with
    ⟨_, hE⟩ | ⟨c, hsp, h0, hE | hE⟩ | ⟨c, hsp, h0, hE | hE⟩ |
    ⟨c, hsp, h0, hm, w, hE | hE⟩ <;>
    rw [hE] at h <;>
    first
      | exact ⟨c, hsp, h0, hm⟩
      | exact absurd h (by simp)

theorem step_code0 (cfg : Config) (inter : Bool) (attempt : Nat)
    (child : ChildRun) (seed : Nat × Nat) (h0 : child.code = some 0) :
    ∃ evs, runStep cfg inter attempt (some child) seed = .done .success evs := by
  rcases runStep_cases cfg inter attempt (some child) seed with
    ⟨hn, _⟩ | ⟨c, hc, h0', hE | hE⟩ | ⟨c, hc, h0', hE | hE⟩ |
    ⟨c, hc, h0', hm, w, hE | hE⟩ <;>
    first
      | cases hn
      | exact ⟨_, hE⟩
      | (cases hc; exact absurd h0 h0')

theorem step_fail_done (cfg : Config) (inter : Bool) (attempt : Nat)
    (child : ChildRun) (seed : Nat × Nat) (r : RunResult) (evs : List Event)
    (h : runStep cfg inter attempt (some child) seed = .done r evs)
    (h0 : child.code ≠ some 0) :
    r = .exitCode (child.code.getD 1) := by
  rcases runStep_cases cfg inter attempt (some child) seed with
    ⟨hn, _⟩ | ⟨c, hc, h0', hE | hE⟩ | ⟨c, hc, h0', hE | hE⟩ |
    ⟨c, hc, h0', hm, w, hE | hE⟩ <;>
    first
      | cases hn
      | (cases hc; exact absurd h0' h0)
      | (cases hc; have hX := hE.symm.trans h; cases hX; rfl)
      | (have hX := hE.symm.trans h; cases hX)

theorem step_none (cfg : Config) (inter : Bool) (attempt : Nat) (seed : Nat × Nat) :
    runStep cfg inter attempt none seed =
      .done (.exitCode 127) [.spawned attempt inter] := rfl

theorem step_last (cfg : Config) (inter : Bool) (child : ChildRun) (seed : Nat × Nat)
    (h0 : child.code ≠ some 0) :
    ∃ evs, runStep cfg inter cfg.max_retries (some child) seed =
      .done (.exitCode (child.code.getD 1)) evs := by
  rcases runStep_cases cfg inter cfg.max_retries (some child) seed with
    ⟨hn, _⟩ | ⟨c, hc, h0', hE | hE⟩ | ⟨c, hc, h0', hE | hE⟩ |
    ⟨c, hc, h0', hm, w, hE | hE⟩ <;>
    first
      | cases hn
      | (cases hc; exact absurd h0' h0)
      | (cases hc; exact ⟨_, hE⟩)
      | exact absurd rfl hm

/-! ## Helper lemmas about the attempt loop -/

theorem runLoop_succ_done (cfg : Config) (inter : Bool) (env : Nat → Option ChildRun)
    (seeds : Nat → Nat × Nat) (fuel attempt : Nat) (r : RunResult) (evs : List Event)
    (hstep : runStep cfg inter attempt (env attempt) (seeds attempt) = .done r evs) :
    runLoop cfg inter env seeds (fuel + 1) attempt = (r, evs) := by
  simp only [runLoop, hstep]

theorem runLoop_succ_retry (cfg : Config) (inter : Bool) (env : Nat → Option ChildRun)
    (seeds : Nat → Nat × Nat) (fuel attempt : Nat) (evs : List Event)
    (hstep : runStep cfg inter attempt (env attempt) (seeds attempt) = .retry evs) :
    runLoop cfg inter env seeds (fuel + 1) attempt =
      ((runLoop cfg inter env seeds fuel (attempt + 1)).1,
        evs ++ (runLoop cfg inter env seeds fuel (attempt + 1)).2) := by
  simp only [runLoop, hstep]

theorem spawnCount_append (a b : List Event) :
    spawnCount (a ++ b) = spawnCount a + spawnCount b := by
  simp [spawnCount, List.filter_append]

theorem loop_evs_idx (cfg : Config) (inter : Bool) (env : Nat → Option ChildRun)
    (seeds : Nat → Nat × Nat) :
    ∀ fuel attempt, ∀ e ∈ (runLoop cfg inter env seeds fuel attempt).2,
      attempt ≤ e.idx ∧ e.idx < attempt + fuel := by
  intro fuel
  induction fuel with
  | zero => intro attempt e he; simp [runLoop] at he
  | succ n ih =>
    intro attempt e he
    cases hstep : runStep cfg inter attempt (env attempt) (seeds attempt) with
    | done r evs =>
      rw [runLoop_succ_done cfg inter env seeds n attempt r evs hstep] at he
      have hidx := step_evs_idx cfg inter attempt (env attempt) (seeds attempt) e
        (by rw [hstep]; exact he)
      omega
    | retry evs =>
      rw [runLoop_succ_retry cfg inter env seeds n attempt evs hstep] at he
      rcases List.mem_append.mp he with he | he
      · have hidx := step_evs_idx cfg inter attempt (env attempt) (seeds attempt) e
          (by rw [hstep]; exact he)
        omega
      · have := ih (attempt + 1) e he
        omega

theorem loop_spawned_mode (cfg : Config) (inter : Bool) (env : Nat → Option ChildRun)
    (seeds : Nat → Nat × Nat) :
    ∀ fuel attempt a m, Event.spawned a m ∈ (runLoop cfg inter env seeds fuel attempt).2 →
      m = inter := by
  intro fuel
  induction fuel with
  | zero => intro attempt a m he; simp [runLoop] at he
  | succ n ih =>
    intro attempt a m he
    cases hstep : runStep cfg inter attempt (env attempt) (seeds attempt) with
    | done r evs =>
      rw [runLoop_succ_done cfg inter env seeds n attempt r evs hstep] at he
      exact step_spawned_mode cfg inter attempt (env attempt) (seeds attempt) a m
        (by rw [hstep]; exact he)
    | retry evs =>
      rw [runLoop_succ_retry cfg inter env seeds n attempt evs hstep] at he
      rcases List.mem_append.mp he with he | he
      · exact step_spawned_mode cfg inter attempt (env attempt) (seeds attempt) a m
          (by rw [hstep]; exact he)
      · exact ih (attempt + 1) a m he

theorem loop_spawnCount (cfg : Config) (inter : Bool) (env : Nat → Option ChildRun)
    (seeds : Nat → Nat × Nat) :
    ∀ fuel attempt, spawnCount (runLoop cfg inter env seeds fuel attempt).2 ≤ fuel := by
  intro fuel
  induction fuel with
  | zero => intro attempt; simp [runLoop, spawnCount]
  | succ n ih =>
    intro attempt
    cases hstep : runStep cfg inter attempt (env attempt) (seeds attempt) with
    | done r evs =>
      rw [runLoop_succ_done cfg inter env seeds n attempt r evs hstep]
      have h1 := step_spawnCount cfg inter attempt (env attempt) (seeds attempt)
      rw [hstep] at h1
      simp only [StepRes.evs] at h1
      show spawnCount evs ≤ n + 1
      omega
    | retry evs =>
      rw [runLoop_succ_retry cfg inter env seeds n attempt evs hstep]
      have h1 := step_spawnCount cfg inter attempt (env attempt) (seeds attempt)
      rw [hstep] at h1
      simp only [StepRes.evs] at h1
      have h2 := ih (attempt + 1)
      show spawnCount (evs ++ (runLoop cfg inter env seeds n (attempt + 1)).2) ≤ n + 1
      rw [spawnCount_append]
      omega

theorem loop_head_spawn (cfg : Config) (inter : Bool) (env : Nat → Option ChildRun)
    (seeds : Nat → Nat × Nat) (fuel attempt : Nat) :
    ∃ tl, (runLoop cfg inter env seeds (fuel + 1) attempt).2 =
      Event.spawned attempt inter :: tl := by
  cases hstep : runStep cfg inter attempt (env attempt) (seeds attempt) with
  | done r evs =>
    rw [runLoop_succ_done cfg inter env seeds fuel attempt r evs hstep]
    obtain ⟨tl, htl⟩ := step_head_spawn cfg inter attempt (env attempt) (seeds attempt)
    rw [hstep] at htl
    exact ⟨tl, htl⟩
  | retry evs =>
    rw [runLoop_succ_retry cfg inter env seeds fuel attempt evs hstep]
    obtain ⟨tl, htl⟩ := step_head_spawn cfg inter attempt (env attempt) (seeds attempt)
    rw [hstep] at htl
    simp only [StepRes.evs] at htl
    subst htl
    exact ⟨_, rfl⟩

theorem loop_success (cfg : Config) (inter : Bool) (env : Nat → Option ChildRun)
    (seeds : Nat → Nat × Nat) :
    ∀ fuel attempt a m child,
      Event.spawned a m ∈ (runLoop cfg inter env seeds fuel attempt).2 →
      env a = some child → child.code = some 0 →
      (runLoop cfg inter env seeds fuel attempt).1 = .success := by
  intro fuel
  induction fuel with
  | zero => intro attempt a m child he _ _; simp [runLoop] at he
  | succ n ih =>
    intro attempt a m child he henv h0
    cases hstep : runStep cfg inter attempt (env attempt) (seeds attempt) with
    | done r evs =>
      rw [runLoop_succ_done cfg inter env seeds n attempt r evs hstep] at he ⊢
      have hidx := step_evs_idx cfg inter attempt (env attempt) (seeds attempt)
        (Event.spawned a m) (by rw [hstep]; exact he)
      simp only [Event.idx] at hidx
      subst hidx
      rw [henv] at hstep
      obtain ⟨evs', hE⟩ := step_code0 cfg inter a child (seeds a) h0
      have hX := hE.symm.trans hstep
      cases hX
      rfl
    | retry evs =>
      rw [runLoop_succ_retry cfg inter env seeds n attempt evs hstep] at he ⊢
      rcases List.mem_append.mp he with he | he
      · have hidx := step_evs_idx cfg inter attempt (env attempt) (seeds attempt)
          (Event.spawned a m) (by rw [hstep]; exact he)
        simp only [Event.idx] at hidx
        subst hidx
        obtain ⟨c, hsp, h0c, _⟩ := step_retry_inv cfg inter a (env a) (seeds a) evs hstep
        rw [henv] at hsp
        cases hsp
        exact absurd h0 h0c
      · exact ih (attempt + 1) a m child he henv h0

theorem loop_spawnfail (cfg : Config) (inter : Bool) (env : Nat → Option ChildRun)
    (seeds : Nat → Nat × Nat) :
    ∀ fuel attempt a m,
      Event.spawned a m ∈ (runLoop cfg inter env seeds fuel attempt).2 →
      env a = none →
      (runLoop cfg inter env seeds fuel attempt).1 = .exitCode 127 ∧
      ∀ e ∈ (runLoop cfg inter env seeds fuel attempt).2, e.idx ≤ a := by
  intro fuel
  induction fuel with
  | zero => intro attempt a m he _; simp [runLoop] at he
  | succ n ih =>
    intro attempt a m he henv
    cases hstep : runStep cfg inter attempt (env attempt) (seeds attempt) with
    | done r evs =>
      rw [runLoop_succ_done cfg inter env seeds n attempt r evs hstep] at he ⊢
      have hidx := step_evs_idx cfg inter attempt (env attempt) (seeds attempt)
        (Event.spawned a m) (by rw [hstep]; exact he)
      simp only [Event.idx] at hidx
      subst hidx
      rw [henv, step_none cfg inter a (seeds a)] at hstep
      cases hstep
      refine ⟨rfl, ?_⟩
      intro e he'
      simp only [List.mem_singleton] at he'
      subst he'
      simp [Event.idx]
    | retry evs =>
      rw [runLoop_succ_retry cfg inter env seeds n attempt evs hstep] at he ⊢
      rcases List.mem_append.mp he with he | he
      · have hidx := step_evs_idx cfg inter attempt (env attempt) (seeds attempt)
          (Event.spawned a m) (by rw [hstep]; exact he)
        simp only [Event.idx] at hidx
        subst hidx
        obtain ⟨c, hsp, _, _⟩ := step_retry_inv cfg inter a (env a) (seeds a) evs hstep
        rw [henv] at hsp
        cases hsp
      · obtain ⟨h1, h2⟩ := ih (attempt + 1) a m he henv
        refine ⟨h1, ?_⟩
        intro e he'
        rcases List.mem_append.mp he' with he' | he'
        · have hidx := step_evs_idx cfg inter attempt (env attempt) (seeds attempt)
            e (by rw [hstep]; exact he')
          have ha := (loop_evs_idx cfg inter env seeds n (attempt + 1)
            (Event.spawned a m) he).1
          simp only [Event.idx] at ha
          omega
        · exact h2 e he'

theorem loop_lastfail (cfg : Config) (inter : Bool) (env : Nat → Option ChildRun)
    (seeds : Nat → Nat × Nat) :
    ∀ fuel attempt, attempt + fuel = cfg.max_retries + 1 →
      ∀ a m child,
      Event.spawned a m ∈ (runLoop cfg inter env seeds fuel attempt).2 →
      (∀ a' m', Event.spawned a' m' ∈ (runLoop cfg inter env seeds fuel attempt).2 → a' ≤ a) →
      env a = some child → child.code ≠ some 0 →
      (runLoop cfg inter env seeds fuel attempt).1 = .exitCode (child.code.getD 1) := by
  intro fuel
  induction fuel with
  | zero => intro attempt _ a m child he _ _ _; simp [runLoop] at he
  | succ n ih =>
    intro attempt hinv a m child he hmax henv h0
    cases hstep : runStep cfg inter attempt (env attempt) (seeds attempt) with
    | done r evs =>
      rw [runLoop_succ_done cfg inter env seeds n attempt r evs hstep] at he ⊢
      have hidx := step_evs_idx cfg inter attempt (env attempt) (seeds attempt)
        (Event.spawned a m) (by rw [hstep]; exact he)
      simp only [Event.idx] at hidx
      subst hidx
      rw [henv] at hstep
      exact step_fail_done cfg inter a child (seeds a) r evs hstep h0
    | retry evs =>
      rw [runLoop_succ_retry cfg inter env seeds n attempt evs hstep] at he hmax ⊢
      obtain ⟨c, hsp, h0c, hne⟩ :=
        step_retry_inv cfg inter attempt (env attempt) (seeds attempt) evs hstep
      obtain ⟨n', rfl⟩ : ∃ n', n = n' + 1 := ⟨n - 1, by omega⟩
      obtain ⟨tl, htl⟩ := loop_head_spawn cfg inter env seeds n' (attempt + 1)
      have hnext : Event.spawned (attempt + 1) inter ∈
          (runLoop cfg inter env seeds (n' + 1) (attempt + 1)).2 := by
        rw [htl]; exact List.mem_cons_self _ _
      have hlea : attempt + 1 ≤ a :=
        hmax (attempt + 1) inter (List.mem_append.mpr (Or.inr hnext))
      rcases List.mem_append.mp he with he | he
      · have hidx := step_evs_idx cfg inter attempt (env attempt) (seeds attempt)
          (Event.spawned a m) (by rw [hstep]; exact he)
        simp only [Event.idx] at hidx
        omega
      · refine ih (attempt + 1) (by omega) a m child he ?_ henv h0
        intro a' m' hmem
        exact hmax a' m' (List.mem_append.mpr (Or.inr hmem))

/-! ## Interactive-mode lemmas -/

theorem step_inter_reduce (cfg : Config) (attempt : Nat) (child : ChildRun)
    (seed : Nat × Nat) :
    runStep cfg true attempt (some child) seed =
      if child.code = some 0 then .done .success [.spawned attempt true]
      else if attempt = cfg.max_retries then
        .done (.exitCode (child.code.getD 1)) [.spawned attempt true]
      else .retry [.spawned attempt true,
        .waited attempt (backoff_ms attempt cfg.base_delay_ms cfg.max_delay_ms
          seed.1 seed.2)] := rfl

theorem step_inter_noRelay (cfg : Config) (attempt : Nat) (sp : Option ChildRun)
    (seed : Nat × Nat) (a : Nat) :
    Event.teeUsed a ∉ (runStep cfg true attempt sp seed).evs ∧
    Event.patternsChecked a ∉ (runStep cfg true attempt sp seed).evs := by
  rcases sp with _ | child
  · simp [runStep, StepRes.evs]
  · rw [step_inter_reduce]
    by_cases h0 : child.code = some 0 <;> by_cases hm : attempt = cfg.max_retries <;>
      simp [h0, hm, StepRes.evs]

theorem step_inter_congr (cfg : Config) (attempt : Nat) (seed : Nat × Nat)
    (sp sp' : Option ChildRun) (h : sp.map ChildRun.code = sp'.map ChildRun.code) :
    runStep cfg true attempt sp seed = runStep cfg true attempt sp' seed := by
  rcases sp with _ | c <;> rcases sp' with _ | c' <;> simp at h
  · rfl
  · rw [step_inter_reduce, step_inter_reduce, h]

theorem loop_inter_noRelay (cfg : Config) (env : Nat → Option ChildRun)
    (seeds : Nat → Nat × Nat) :
    ∀ fuel attempt a,
      Event.teeUsed a ∉ (runLoop cfg true env seeds fuel attempt).2 ∧
      Event.patternsChecked a ∉ (runLoop cfg true env seeds fuel attempt).2 := by
  intro fuel
  induction fuel with
  | zero => intro attempt a; simp [runLoop]
  | succ n ih =>
    intro attempt a
    cases hstep : runStep cfg true attempt (env attempt) (seeds attempt) with
    | done r evs =>
      rw [runLoop_succ_done cfg true env seeds n attempt r evs hstep]
      have h := step_inter_noRelay cfg attempt (env attempt) (seeds attempt) a
      rw [hstep] at h
      exact h
    | retry evs =>
      rw [runLoop_succ_retry cfg true env seeds n attempt evs hstep]
      have h := step_inter_noRelay cfg attempt (env attempt) (seeds attempt) a
      rw [hstep] at h
      simp only [StepRes.evs] at h
      have h2 := ih (attempt + 1) a
      constructor
      · show Event.teeUsed a ∉ evs ++ (runLoop cfg true env seeds n (attempt + 1)).2
        simp only [List.mem_append]
        rintro (hx | hx)
        · exact h.1 hx
        · exact h2.1 hx
      · show Event.patternsChecked a ∉ evs ++ (runLoop cfg true env seeds n (attempt + 1)).2
        simp only [List.mem_append]
        rintro (hx | hx)
        · exact h.2 hx
        · exact h2.2 hx

theorem loop_inter_next (cfg : Config) (env : Nat → Option ChildRun)
    (seeds : Nat → Nat × Nat) :
    ∀ fuel attempt, attempt + fuel = cfg.max_retries + 1 →
      ∀ a child, a < cfg.max_retries → env a = some child → child.code ≠ some 0 →
      Event.spawned a true ∈ (runLoop cfg true env seeds fuel attempt).2 →
      Event.spawned (a + 1) true ∈ (runLoop cfg true env seeds fuel attempt).2 := by
  intro fuel
  induction fuel with
  | zero => intro attempt _ a child _ _ _ he; simp [runLoop] at he
  | succ n ih =>
    intro attempt hinv a child hlt henv h0 he
    cases hstep : runStep cfg true attempt (env attempt) (seeds attempt) with
    | done r evs =>
      rw [runLoop_succ_done cfg true env seeds n attempt r evs hstep] at he ⊢
      have hidx := step_evs_idx cfg true attempt (env attempt) (seeds attempt)
        (Event.spawned a true) (by rw [hstep]; exact he)
      simp only [Event.idx] at hidx
      subst hidx
      rw [henv, step_inter_reduce] at hstep
      rw [if_neg h0, if_neg (by omega : ¬ a = cfg.max_retries)] at hstep
      cases hstep
    | retry evs =>
      rw [runLoop_succ_retry cfg true env seeds n attempt evs hstep] at he ⊢
      rcases List.mem_append.mp he with he | he
      · have hidx := step_evs_idx cfg true attempt (env attempt) (seeds attempt)
          (Event.spawned a true) (by rw [hstep]; exact he)
        simp only [Event.idx] at hidx
        subst hidx
        obtain ⟨n', rfl⟩ : ∃ n', n = n' + 1 := ⟨n - 1, by omega⟩
        obtain ⟨tl, htl⟩ := loop_head_spawn cfg true env seeds n' (a + 1)
        refine List.mem_append.mpr (Or.inr ?_)
        rw [htl]
        exact List.mem_cons_self _ _
      · exact List.mem_append.mpr
          (Or.inr (ih (attempt + 1) (by omega) a child hlt henv h0 he))

theorem loop_inter_congr (cfg : Config) (env env' : Nat → Option ChildRun)
    (seeds : Nat → Nat × Nat) (hagree : codesAgree env env') :
    ∀ fuel attempt, runLoop cfg true env seeds fuel attempt =
      runLoop cfg true env' seeds fuel attempt := by
  intro fuel
  induction fuel with
  | zero => intro attempt; rfl
  | succ n ih =>
    intro attempt
    simp only [runLoop]
    rw [step_inter_congr cfg attempt (seeds attempt) (env attempt) (env' attempt)
      (hagree attempt), ih (attempt + 1)]

/-! ## Stream-relay lemma: the happy path of teeRun -/

theorem teeRun_ok (wr fl : Nat → Option IoErrKind) (hok : ∀ i, wr i = none ∧ fl i = none) :
    ∀ reads : List ReadOutcome,
      (∀ r ∈ reads, (∃ bs, r = ReadOutcome.bytes bs ∧ bs ≠ []) ∨
        r = ReadOutcome.fail IoErrKind.interrupted) →
      ∀ i buf ws, teeRun wr fl reads i buf ws =
        (Except.ok (buf ++ (chunksOf reads).flatten), ws ++ chunksOf reads) := by
  intro reads
  induction reads with
  | nil => intro _ i buf ws; simp [teeRun, chunksOf]
  | cons r rs ih =>
    intro hr i buf ws
    rcases hr r (List.mem_cons_self r rs) with ⟨bs, rfl, hbs⟩ | rfl
    · rcases bs with _ | ⟨b, bs'⟩
      · exact absurd rfl hbs
      · simp only [teeRun, List.isEmpty_cons, (hok i).1, (hok i).2]
        rw [ih (fun x hx => hr x (List.mem_cons_of_mem _ hx)) (i + 1) (buf ++ b :: bs')
          (ws ++ [b :: bs'])]
        simp [chunksOf, List.append_assoc]
    · simp only [teeRun]
      rw [ih (fun x hx => hr x (List.mem_cons_of_mem _ hx)) i buf ws]
      simp [chunksOf]

/-! ## Claim C7 -/

/-- Claim C7: for every output text matched by no compiled pattern, the
decision engine returns retry = true with no explicit wait iff the
retry-on-any flag is set and the exit code is absent or nonzero; in every
other such case it returns retry = false with no explicit wait. -/
theorem C7_theorem : ∀ (rs : List Regex) (t : List Char) (code : Option Int) (flag : Bool),
    (∀ re ∈ rs, re.isMatch t = false) →
    (((should_retry t code flag rs).1 = true ↔ (flag = true ∧ code ≠ some 0)) ∧
      (should_retry t code flag rs).2 = none) := by
  intro rs t code flag hnone
  have hfind : rs.find? (fun re => re.isMatch t) = none := by
    apply List.find?_eq_none.mpr
    intro x hx
    simp [hnone x hx]
  rcases code with _ | c
  · cases flag <;> simp [should_retry, hfind]
  · cases flag <;> by_cases hc : c = 0 <;> simp [should_retry, hfind, hc]

/-- Witness for C7 at a concrete unmatched output with exit code 2 and the
retry-on-any flag set. -/
theorem C7_witness :
    (should_retry "hello".data (some 2) true (compile_patterns none none)).1 = true ∧
    (should_retry "hello".data (some 2) true (compile_patterns none none)).2 = none := by
  have h := C7_theorem (compile_patterns none none) "hello".data (some 2) true (by decide)
  exact ⟨h.1.mpr ⟨rfl, by decide⟩, h.2⟩

/-! ## Claim C1 -/

/-- Counterexample to claim C1 as stated: the text "Retry-After: 7" does
contain a Retry-After hint (scanHint finds 7), yet `should_retry` on it, with
the compiled built-in patterns, exit code 1 and the retry-on-any flag off,
returns no explicit wait at all (and no retry), because the hint is only
consulted after some pattern has matched. -/
theorem C1_counterexample :
    scanHint "Retry-After: 7".data = some 7 ∧
    should_retry "Retry-After: 7".data (some 1) false (compile_patterns none none) =
      (false, none) := by decide

/-- Claim C1 (amended): for every pattern list and every text that at least
one of the patterns matches, if the text's first "Retry-After: N" hint has
value n (with n·1000 in u64 range), then `should_retry` returns retry = true
with an explicit wait of n·1000 milliseconds, independent of the exit code,
the retry-on-any flag, and the configured base and cap delays (which
`should_retry` never sees). -/
theorem C1_theorem : ∀ (rs : List Regex) (t : List Char) (code : Option Int)
    (flag : Bool) (n : Nat),
    (∃ re ∈ rs, re.isMatch t = true) →
    scanHint t = some n → n * 1000 < U64MOD →
    should_retry t code flag rs = (true, some (n * 1000)) := by
  intro rs t code flag n hex hscan hlt
  obtain ⟨re, hre, hmatch⟩ := hex
  have hfind : (rs.find? (fun re => re.isMatch t)).isSome := by
    rw [List.find?_isSome]
    exact ⟨re, hre, hmatch⟩
  obtain ⟨re', hre'⟩ := Option.isSome_iff_exists.mp hfind
  have hn : n < U64MOD := by
    have : n ≤ n * 1000 := Nat.le_mul_of_pos_right n (by norm_num)
    omega
  unfold should_retry
  rw [hre']
  unfold find_retry_after_ms
  rw [hscan]
  simp [hn, Nat.mod_eq_of_lt hlt]

/-- Witness for C1 (amended) at a concrete matching text carrying the hint
"Retry-After: 7". -/
theorem C1_witness :
    should_retry "overloaded Retry-After: 7".data (some 1) false
      (compile_patterns none none) = (true, some 7000) :=
  C1_theorem (compile_patterns none none) "overloaded Retry-After: 7".data (some 1) false 7
    (by decide) (by decide) (by decide)

/-! ## Claim C2 -/

/-- Counterexample to claim C2 as stated: the user-supplied pattern "FOO"
(passed through the CLAUDE_SUPERVISOR_PATTERNS override) is compiled verbatim
into the pattern set and matches "FOO" but not its case-variant "foo", so not
every compiled pattern matches case-insensitively. -/
theorem C2_counterexample :
    Regex.lit "FOO" ∈ compile_patterns (some "FOO") none ∧
    caseVariant "FOO".data "foo".data ∧
    Regex.isMatch (Regex.lit "FOO") "FOO".data = true ∧
    Regex.isMatch (Regex.lit "FOO") "foo".data = false := by decide

/-- Claim C2 (amended): every BUILT-IN compiled pattern matches
case-insensitively — for case-variant texts it gives the same answer.
User-supplied patterns are compiled verbatim and are case-insensitive only if
written so (e.g. with a (?i) flag). -/
theorem C2_theorem : ∀ re ∈ compile_patterns none none, ∀ t t' : List Char,
    caseVariant t t' → re.isMatch t = re.isMatch t' := by
  have hcp : compile_patterns none none = builtinRegexes := by decide
  rw [hcp]
  intro re hre t t' h
  fin_cases hre <;> (simp only [Regex.isMatch]; rw [h])

/-- Witness for C2 (amended): the built-in overload pattern treats
"OVERLOADED" and "overloaded" alike. -/
theorem C2_witness :
    Regex.isMatch Regex.overloaded "OVERLOADED".data =
      Regex.isMatch Regex.overloaded "overloaded".data :=
  C2_theorem Regex.overloaded (by decide) "OVERLOADED".data "overloaded".data (by decide)

/-! ## Claim C10 -/

/-- Claim C10: for every value of the CLAUDE_SUPERVISOR_PATTERNS override and
every command-line patterns string, the compiled list is exactly the 13
built-in patterns, compiled in their listed order, followed by whatever
user-supplied patterns compile; in particular its first 13 entries are always
the built-ins. -/
theorem C10_theorem : ∀ envPats extra : Option String,
    compile_patterns envPats extra =
      builtinRegexes ++ (userPatStrings envPats extra).filterMap regexNew ∧
    (compile_patterns envPats extra).take 13 = builtinRegexes := by
  intro envPats extra
  have h : compile_patterns envPats extra =
      builtinRegexes ++ (userPatStrings envPats extra).filterMap regexNew := by
    simp only [compile_patterns, userPatStrings, List.append_assoc, List.filterMap_append]
    congr 1
  refine ⟨h, ?_⟩
  rw [h, show (13 : Nat) = builtinRegexes.length from rfl, List.take_left]

/-! ## Claim C6 -/

/-- Counterexample to claim C6 as stated: at the u64 boundary
(base = cap = u64::MAX) a second draw of 250 overflows the wrapping u64 sum,
so the result (249) drops below base even though base ≤ cap. -/
theorem C6_counterexample :
    (2 ^ 64 - 1 : Nat) ≤ 2 ^ 64 - 1 ∧
    backoff_ms 0 (2 ^ 64 - 1) (2 ^ 64 - 1) 0 250 < 2 ^ 64 - 1 := by decide

/-- Claim C6 (amended): for every attempt index, base and cap with
base ≤ cap, provided cap + 250 stays below 2^64 (so the u64 sum cannot
wrap), every outcome of the two random draws gives a backoff of at least
base and at most cap + 250 milliseconds. -/
theorem C6_theorem : ∀ attempt base cap s1 s2 : Nat, base ≤ cap →
    cap + 250 < U64MOD →
    base ≤ backoff_ms attempt base cap s1 s2 ∧
    backoff_ms attempt base cap s1 s2 ≤ cap + 250 := by
  intro attempt base cap s1 s2 hbc hcap
  simp only [backoff_ms]
  set e := satMulU64 base (satPow2U64 attempt) with he
  set upper := max (min cap e) base with hu
  have hub : upper ≤ cap := max_le (le_trans (min_le_left _ _) le_rfl) hbc
  have hbu : base ≤ upper := le_max_right _ _
  have h1 : randomRangeIncl (upper - base) s1 ≤ upper - base :=
    Nat.lt_succ_iff.mp (Nat.mod_lt _ (Nat.succ_pos _))
  have h2 : randomRangeIncl 250 s2 ≤ 250 :=
    Nat.lt_succ_iff.mp (Nat.mod_lt _ (Nat.succ_pos _))
  have hmod : (base + randomRangeIncl (upper - base) s1 + randomRangeIncl 250 s2) % U64MOD =
      base + randomRangeIncl (upper - base) s1 + randomRangeIncl 250 s2 :=
    Nat.mod_eq_of_lt (by omega)
  rw [hmod]
  omega

/-- Witness for C6 (amended) at the default configuration values. -/
theorem C6_witness :
    500 ≤ backoff_ms 1 500 20000 7 3 ∧ backoff_ms 1 500 20000 7 3 ≤ 20250 :=
  C6_theorem 1 500 20000 7 3 (by norm_num) (by decide)

/-! ## Claim C8 -/

/-- Claim C8: the stream relay retries Interrupted read errors transparently;
any other read error, or a write or flush error, terminates the relay with
that error surfaced; and when the source only yields data chunks (possibly
with interrupts) and all writes succeed, it returns exactly the concatenation
of all bytes read, every chunk having also been written (and flushed) to the
destination in order. -/
theorem C8_theorem :
    (∀ (wr fl : Nat → Option IoErrKind) (rs : List ReadOutcome) (i : Nat)
        (buf : List Nat) (ws : List (List Nat)),
      teeRun wr fl (ReadOutcome.fail IoErrKind.interrupted :: rs) i buf ws =
        teeRun wr fl rs i buf ws) ∧
    (∀ (wr fl : Nat → Option IoErrKind) (e : Nat) (rs : List ReadOutcome) (i : Nat)
        (buf : List Nat) (ws : List (List Nat)),
      teeRun wr fl (ReadOutcome.fail (IoErrKind.other e) :: rs) i buf ws =
        (Except.error (IoErrKind.other e), ws)) ∧
    (∀ (wr fl : Nat → Option IoErrKind) (k : IoErrKind) (bs : List Nat)
        (rs : List ReadOutcome) (i : Nat) (buf : List Nat) (ws : List (List Nat)),
      bs ≠ [] → wr i = some k →
      teeRun wr fl (ReadOutcome.bytes bs :: rs) i buf ws = (Except.error k, ws)) ∧
    (∀ (wr fl : Nat → Option IoErrKind) (k : IoErrKind) (bs : List Nat)
        (rs : List ReadOutcome) (i : Nat) (buf : List Nat) (ws : List (List Nat)),
      bs ≠ [] → wr i = none → fl i = some k →
      teeRun wr fl (ReadOutcome.bytes bs :: rs) i buf ws =
        (Except.error k, ws ++ [bs])) ∧
    (∀ (wr fl : Nat → Option IoErrKind) (reads : List ReadOutcome),
      (∀ i, wr i = none ∧ fl i = none) →
      (∀ r ∈ reads, (∃ bs, r = ReadOutcome.bytes bs ∧ bs ≠ []) ∨
        r = ReadOutcome.fail IoErrKind.interrupted) →
      tee_reader wr fl reads =
        (Except.ok (chunksOf reads).flatten, chunksOf reads)) := by
  refine ⟨fun wr fl rs i buf ws => rfl, fun wr fl e rs i buf ws => rfl, ?_, ?_, ?_⟩
  · intro wr fl k bs rs i buf ws hbs hwr
    rcases bs with _ | ⟨b, bs'⟩
    · exact absurd rfl hbs
    · simp [teeRun, hwr]
  · intro wr fl k bs rs i buf ws hbs hwr hfl
    rcases bs with _ | ⟨b, bs'⟩
    · exact absurd rfl hbs
    · simp [teeRun, hwr, hfl]
  · intro wr fl reads hok hreads
    have h := teeRun_ok wr fl hok reads hreads 0 [] []
    simpa [tee_reader] using h

/-- Witness for C8 at a concrete read stream with one transparent interrupt
and two chunks. -/
theorem C8_witness :
    tee_reader (fun _ => none) (fun _ => none)
      [ReadOutcome.bytes [1, 2], ReadOutcome.fail IoErrKind.interrupted,
        ReadOutcome.bytes [3]] = (Except.ok [1, 2, 3], [[1, 2], [3]]) := by
  have h := C8_theorem.2.2.2.2 (fun _ => none) (fun _ => none)
    [ReadOutcome.bytes [1, 2], ReadOutcome.fail IoErrKind.interrupted,
      ReadOutcome.bytes [3]]
    (fun i => ⟨rfl, rfl⟩)
    (by
      intro r hr
      fin_cases hr
      · exact Or.inl ⟨[1, 2], rfl, by decide⟩
      · exact Or.inr rfl
      · exact Or.inl ⟨[3], rfl, by decide⟩)
  exact h

/-! ## Claim C3 -/

/-- Claim C3: the run's mode is Interactive iff there is no captured stdin,
the child argument list is empty, stdin is an interactive terminal and
capture is not forced; and the mode, computed once before the first attempt,
is the one in force at every spawned attempt of the run. -/
theorem C3_theorem :
    (∀ (sb : List Nat) (tty : Bool) (args : List String) (ft : Bool),
      decideInteractive sb tty args ft = true ↔
        (sb = [] ∧ args = [] ∧ tty = true ∧ ft = false)) ∧
    (∀ (cfg : Config) (sb : List Nat) (tty : Bool) (env : Nat → Option ChildRun)
        (seeds : Nat → Nat × Nat) (a : Nat) (m : Bool),
      Event.spawned a m ∈ (runClaude cfg sb tty env seeds).2 →
      m = decideInteractive sb tty cfg.args cfg.force_tee) := by
  constructor
  · intro sb tty args ft
    cases sb <;> cases args <;> cases tty <;> cases ft <;> simp [decideInteractive]
  · intro cfg sb tty env seeds a m hm
    exact loop_spawned_mode cfg (decideInteractive sb tty cfg.args cfg.force_tee)
      env seeds (cfg.max_retries + 1) 0 a m hm

/-- Witness for C3, conjunct 2, at a one-attempt interactive run. -/
theorem C3_witness :
    Event.spawned 0 true ∈ (runClaude cfgW [] true envOk seedsW).2 ∧
    true = decideInteractive [] true cfgW.args cfgW.force_tee := by
  have hm : Event.spawned 0 true ∈ (runClaude cfgW [] true envOk seedsW).2 := by decide
  exact ⟨hm, C3_theorem.2 cfgW [] true envOk seedsW 0 true hm⟩

/-! ## Claim C4 -/

/-- Claim C4: in every run at most max_retries + 1 children are spawned and
every spawned attempt index is at most max_retries; and whenever the loop is
at attempt index max_retries and the child fails, the run ends with the
child's exit code (1 if unavailable) regardless of what the decision engine
would say. -/
theorem C4_theorem : ∀ (cfg : Config) (sb : List Nat) (tty : Bool)
    (env : Nat → Option ChildRun) (seeds : Nat → Nat × Nat),
    spawnCount (runClaude cfg sb tty env seeds).2 ≤ cfg.max_retries + 1 ∧
    (∀ a m, Event.spawned a m ∈ (runClaude cfg sb tty env seeds).2 →
      a ≤ cfg.max_retries) ∧
    (∀ (fuel : Nat) (inter : Bool) (child : ChildRun),
      env cfg.max_retries = some child → child.code ≠ some 0 →
      (runLoop cfg inter env seeds (fuel + 1) cfg.max_retries).1 =
        .exitCode (child.code.getD 1)) := by
  intro cfg sb tty env seeds
  refine ⟨?_, ?_, ?_⟩
  · exact loop_spawnCount cfg (decideInteractive sb tty cfg.args cfg.force_tee)
      env seeds (cfg.max_retries + 1) 0
  · intro a m hm
    have h := (loop_evs_idx cfg (decideInteractive sb tty cfg.args cfg.force_tee)
      env seeds (cfg.max_retries + 1) 0 (Event.spawned a m) hm).2
    simp only [Event.idx] at h
    omega
  · intro fuel inter child henv h0
    cases hstep : runStep cfg inter cfg.max_retries (env cfg.max_retries)
        (seeds cfg.max_retries) with
    | done r evs =>
      rw [runLoop_succ_done cfg inter env seeds fuel cfg.max_retries r evs hstep]
      rw [henv] at hstep
      exact step_fail_done cfg inter cfg.max_retries child (seeds cfg.max_retries)
        r evs hstep h0
    | retry evs =>
      obtain ⟨c, hsp, h0c, hne⟩ := step_retry_inv cfg inter cfg.max_retries
        (env cfg.max_retries) (seeds cfg.max_retries) evs hstep
      exact absurd rfl hne

/-- Witness for C4, conjunct 3, at a concrete last attempt whose child exits
with code 2 while the output matches no pattern. -/
theorem C4_witness :
    (runLoop cfgW false envFail2 seedsW 1 cfgW.max_retries).1 = RunResult.exitCode 2 :=
  (C4_theorem cfgW [] true envFail2 seedsW).2.2 0 false ⟨some 2, [], []⟩ rfl (by decide)

/-! ## Claim C5 -/

/-- Claim C5: the wrapper's exit behaviour — any spawned attempt whose child
exits 0 ends the run with success (exit code 0); a spawn failure ends the run
immediately with exit code 127 and no further attempt is spawned; and when
the last spawned attempt's child fails, the run exits with that child's own
code, or 1 when the code is unavailable. -/
theorem C5_theorem : ∀ (cfg : Config) (sb : List Nat) (tty : Bool)
    (env : Nat → Option ChildRun) (seeds : Nat → Nat × Nat),
    (∀ a m child, Event.spawned a m ∈ (runClaude cfg sb tty env seeds).2 →
      env a = some child → child.code = some 0 →
      (runClaude cfg sb tty env seeds).1 = .success) ∧
    (∀ a m, Event.spawned a m ∈ (runClaude cfg sb tty env seeds).2 → env a = none →
      (runClaude cfg sb tty env seeds).1 = .exitCode 127 ∧
      ∀ a' m', Event.spawned a' m' ∈ (runClaude cfg sb tty env seeds).2 → a' ≤ a) ∧
    (∀ a m child, Event.spawned a m ∈ (runClaude cfg sb tty env seeds).2 →
      (∀ a' m', Event.spawned a' m' ∈ (runClaude cfg sb tty env seeds).2 → a' ≤ a) →
      env a = some child → child.code ≠ some 0 →
      (runClaude cfg sb tty env seeds).1 = .exitCode (child.code.getD 1)) := by
  intro cfg sb tty env seeds
  refine ⟨?_, ?_, ?_⟩
  · intro a m child hm henv h0
    exact loop_success cfg (decideInteractive sb tty cfg.args cfg.force_tee)
      env seeds (cfg.max_retries + 1) 0 a m child hm henv h0
  · intro a m hm henv
    obtain ⟨h1, h2⟩ := loop_spawnfail cfg (decideInteractive sb tty cfg.args cfg.force_tee)
      env seeds (cfg.max_retries + 1) 0 a m hm henv
    refine ⟨h1, fun a' m' hm' => ?_⟩
    have := h2 (Event.spawned a' m') hm'
    simpa [Event.idx] using this
  · intro a m child hm hmax henv h0
    exact loop_lastfail cfg (decideInteractive sb tty cfg.args cfg.force_tee)
      env seeds (cfg.max_retries + 1) 0 (by omega) a m child hm hmax henv h0

/-- Witness for C5, conjunct 1, at a run whose first child exits 0. -/
theorem C5_witness : (runClaude cfgW [] true envOk seedsW).1 = RunResult.success := by
  have hm : Event.spawned 0 true ∈ (runClaude cfgW [] true envOk seedsW).2 := by decide
  exact (C5_theorem cfgW [] true envOk seedsW).1 0 true ⟨some 0, [], []⟩ hm rfl rfl

/-! ## Claim C9 -/

/-- Claim C9: in interactive mode the supervision loop never uses the stream
relay or consults the pattern matcher; a nonzero or absent exit status on an
attempt below max_retries alone triggers the next attempt; and the whole run
is independent of the children's output content (it only depends on spawn
success and exit codes). -/
theorem C9_theorem : ∀ (cfg : Config) (sb : List Nat) (tty : Bool)
    (env env' : Nat → Option ChildRun) (seeds : Nat → Nat × Nat),
    decideInteractive sb tty cfg.args cfg.force_tee = true →
    ((∀ a, Event.teeUsed a ∉ (runClaude cfg sb tty env seeds).2 ∧
      Event.patternsChecked a ∉ (runClaude cfg sb tty env seeds).2) ∧
    (∀ a child, a < cfg.max_retries → env a = some child → child.code ≠ some 0 →
      Event.spawned a true ∈ (runClaude cfg sb tty env seeds).2 →
      Event.spawned (a + 1) true ∈ (runClaude cfg sb tty env seeds).2) ∧
    (codesAgree env env' →
      runClaude cfg sb tty env seeds = runClaude cfg sb tty env' seeds)) := by
  intro cfg sb tty env env' seeds hdec
  have hrc : runClaude cfg sb tty env seeds =
      runLoop cfg true env seeds (cfg.max_retries + 1) 0 := by
    simp only [runClaude, hdec]
  have hrc' : runClaude cfg sb tty env' seeds =
      runLoop cfg true env' seeds (cfg.max_retries + 1) 0 := by
    simp only [runClaude, hdec]
  refine ⟨?_, ?_, ?_⟩
  · intro a
    rw [hrc]
    exact loop_inter_noRelay cfg env seeds (cfg.max_retries + 1) 0 a
  · intro a child hlt henv h0 hm
    rw [hrc] at hm ⊢
    exact loop_inter_next cfg env seeds (cfg.max_retries + 1) 0 (by omega)
      a child hlt henv h0 hm
  · intro hagree
    rw [hrc, hrc']
    exact loop_inter_congr cfg env env' seeds hagree (cfg.max_retries + 1) 0

/-- Witness for C9, conjunct 2, at an interactive run whose children always
exit 1: the failure of attempt 0 alone triggers attempt 1. -/
theorem C9_witness :
    Event.spawned 1 true ∈ (runClaude cfgW [] true envFail seedsW).2 := by
  have h := C9_theorem cfgW [] true envFail envFail seedsW (by decide)
  exact h.2.1 0 ⟨some 1, [], []⟩ (by decide) rfl (by decide) (by decide)
